import Mathlib

/-!
# Verification of the EnterTheMatrix terminal animation

Shallow embedding of the "Matrix rain" animation engine
(`src/Matrix/terminal.py`, `src/Matrix/draw_frame.py`,
`src/Matrix/Matrix.py`, `src/Matrix/matrix.py`) and proofs of the
specification's claims about it.

Modelling conventions:
* Python floats drawn by `random.uniform` become rationals (`ℚ`).
* The process-wide random source (`random.uniform`, `random.randint`,
  `random.choice`) becomes an oracle: three streams indexed by the global
  call counter, each call consuming one counter position.  A
  well-formedness predicate records the ranges Python guarantees.
* The three parallel per-column lists `drops`, `speeds`, `lengths` become
  one list of `ColState` records (the code always indexes and updates the
  three lists at the same column index).
* Buffer writes are additionally logged as `(row, column)` events, so that
  in-bounds claims can be stated about the writes the code performs.
-/

namespace ETM

/-- ANSI reset sequence (`_TerminalFrame.RESET`). -/
def RESET : String := "\x1b[0m"

/-- ANSI cursor-to-top-left sequence (`_TerminalFrame.CURSOR_TOP_LEFT`). -/
def CURSOR_TOP_LEFT : String := "\x1b[H"

/-- Fallback column count (`_TerminalFrame.DEFAULT_TERMINAL_COLUMNS`). -/
def DEFAULT_TERMINAL_COLUMNS : Nat := 80

/-- Fallback line count (`_TerminalFrame.DEFAULT_TERMINAL_LINES`). -/
def DEFAULT_TERMINAL_LINES : Nat := 24

/-- Standard green (`FrameDrawer.GREEN`). -/
def GREEN : String := "\x1b[92m"

/-- Bright green, trail head (`FrameDrawer.BRIGHT_GREEN`). -/
def BRIGHT_GREEN : String := "\x1b[38;5;46m"

/-- Dim green, trail tail (`FrameDrawer.DIM_GREEN`). -/
def DIM_GREEN : String := "\x1b[38;5;22m"

/-- Alert red used by error mode (`FrameDrawer.RED`). -/
def RED : String := "\x1b[91m"

/-- The fixed glyph set (`FrameDrawer.CHARS`). -/
def CHARS : List String := [
  "ﾊ", "ﾐ", "ﾋ", "ｰ", "ｳ", "ｼ", "ﾅ", "ﾓ", "ﾆ", "ｻ", "ﾜ", "ﾂ", "ｵ", "ﾘ", "ｱ", "ﾎ",
  "ﾃ", "ﾏ", "ｹ", "ﾒ", "ｴ", "ｶ", "ｷ", "ﾑ", "ﾕ", "ﾗ", "ｾ", "ﾈ", "ｽ", "ﾀ", "ﾇ", "ﾍ",
  "0", "1", "2", "3", "4", "5", "6", "7", "8", "9",
  "Z", ":", ".", "\"", "=", "*", "+", "-", "<", ">", "¦", "|", "ﾘ"]

/-- The process-wide pseudo-random source, as an oracle: the result of the
`k`-th random call, split by which kind of call it is.  Call number `k` of
the run consumes stream position `k`: `floats k` is the result if that call
is `random.uniform(0.5, 1.5)`, `ints k` if it is `random.randint(5, 25)`,
`choices k` (an index into the list argument) if it is `random.choice`. -/
structure RandomSource where
  floats : Nat → ℚ
  ints : Nat → Nat
  choices : Nat → Nat

/-- The ranges Python guarantees for the three kinds of random calls the
program performs: `random.uniform(0.5, 1.5) ∈ [0.5, 1.5]`,
`random.randint(5, 25) ∈ [5, 25]`, and `random.choice(CHARS)` picks a
valid index into `CHARS`. -/
def RandomSource.Wf (o : RandomSource) : Prop :=
  ∀ k, (1/2 : ℚ) ≤ o.floats k ∧ o.floats k ≤ 3/2 ∧
    5 ≤ o.ints k ∧ o.ints k ≤ 25 ∧ o.choices k < CHARS.length

/-- Python's `int()` on a rational: truncation toward zero. -/
def pyTrunc (q : ℚ) : Int :=
  if 0 ≤ q then ⌊q⌋ else -⌊-q⌋

/-- State of one column: `drops[i]`, `speeds[i]`, `lengths[i]` from
`FrameDrawer.initialize_columns`.  `drop` is a Python `int`, so `Int`;
`speed` a float, so `ℚ`; `len` comes from `randint`, kept as `Nat`. -/
structure ColState where
  drop : Int
  speed : ℚ
  len : Nat
deriving Repr, DecidableEq

/-- Embeds `column_skip_interval = max(1, int(2 / column_speed))` from
`FrameDrawer.update_and_draw_columns`. -/
def skipInterval (speed : ℚ) : Int :=
  max 1 (pyTrunc (2 / speed))

/-- The advance step of `update_and_draw_columns`: if
`frame % column_skip_interval == 0`, `drops[i] += 1`. -/
def advanceDrop (frame : Nat) (c : ColState) : ColState :=
  if (frame : Int) % skipInterval c.speed = 0 then
    { c with drop := c.drop + 1 }
  else c

/-- Embeds `FrameDrawer._reset_column`: `drop = 0`, then one `random.uniform`
call (position `k`) for the new speed and one `random.randint` call
(position `k + 1`) for the new length; returns the new column state and
the advanced call counter. -/
def resetColumn (o : RandomSource) (k : Nat) : ColState × Nat :=
  (⟨0, o.floats k, o.ints (k + 1)⟩, k + 2)

/-- Embeds `FrameDrawer._check_for_drop_off`: reset the column when
`drops[i] > terminal_lines + lengths[i]`. -/
def checkForDropOff (o : RandomSource) (lines : Nat) (c : ColState) (k : Nat) :
    ColState × Nat :=
  if c.drop > (lines : Int) + (c.len : Int) then resetColumn o k else (c, k)

/-- Embeds `FrameDrawer._character_within_terminal_bounds`:
`0 <= vert_pos < self.terminal_lines`. -/
def characterWithinTerminalBounds (lines : Nat) (vertPos : Int) : Bool :=
  0 ≤ vertPos && vertPos < (lines : Int)

/-- Write one cell of a row-major 2D buffer, `buf[r][c] = v`
(out-of-range indices leave the buffer unchanged, mirroring that the code
only ever writes in bounds). -/
def set2d (buf : List (List String)) (r c : Nat) (v : String) :
    List (List String) :=
  buf.set r ((buf.getD r []).set c v)

/-- Embeds `FrameDrawer._set_display_character`: put a random glyph from `CHARS`
at `display[vert_pos][col_index]`; `chosen` is the index the
`random.choice` call drew. -/
def setDisplayCharacter (chosen : Nat) (display : List (List String))
    (vertPos colIndex : Nat) : List (List String) :=
  set2d display vertPos colIndex (CHARS.getD chosen " ")

/-- Embeds `FrameDrawer._set_character_color`: error mode paints `RED`;
otherwise trail offset 0 paints `BRIGHT_GREEN`, offsets `< 3` paint
`GREEN`, the rest paint `DIM_GREEN`. -/
def setCharacterColor (error : Bool) (colors : List (List String))
    (vertPos colIndex trailLength : Nat) : List (List String) :=
  if error then set2d colors vertPos colIndex RED
  else if trailLength = 0 then set2d colors vertPos colIndex BRIGHT_GREEN
  else if trailLength < 3 then set2d colors vertPos colIndex GREEN
  else set2d colors vertPos colIndex DIM_GREEN

/-- Accumulator threaded through the drawing code: the two buffers, the
random call counter, and the log of `(row, column)` buffer writes. -/
structure DrawAcc where
  display : List (List String)
  colors : List (List String)
  k : Nat
  writes : List (Int × Nat)
deriving Repr, DecidableEq

/-- Embeds `FrameDrawer._draw_and_color_character`: `vert_pos = drops[i] - j`;
when in terminal bounds, write a random glyph and its color (one
`random.choice` call, position `k`), logging the write. -/
def drawAndColorCharacter (o : RandomSource) (error : Bool) (lines : Nat)
    (colIndex : Nat) (c : ColState) (trailLength : Nat) (a : DrawAcc) :
    DrawAcc :=
  let vertPos : Int := c.drop - (trailLength : Int)
  if characterWithinTerminalBounds lines vertPos then
    { display := setDisplayCharacter (o.choices a.k) a.display vertPos.toNat colIndex
      colors := setCharacterColor error a.colors vertPos.toNat colIndex trailLength
      k := a.k + 1
      writes := a.writes ++ [(vertPos, colIndex)] }
  else a

/-- Embeds `FrameDrawer._draw_column_trail`: `for j in range(lengths[i])`, draw
and color one character. -/
def drawColumnTrail (o : RandomSource) (error : Bool) (lines : Nat)
    (colIndex : Nat) (c : ColState) (a : DrawAcc) : DrawAcc :=
  (List.range c.len).foldl (fun a j => drawAndColorCharacter o error lines colIndex c j a) a

/-- The per-column body of `update_and_draw_columns`: advance the drop,
check for drop-off (possibly resetting the column), then draw the trail. -/
def updateColumn (o : RandomSource) (error : Bool) (lines frame : Nat)
    (colIndex : Nat) (c : ColState) (a : DrawAcc) : ColState × DrawAcc :=
  let advanced := advanceDrop frame c
  let (c', k') := checkForDropOff o lines advanced a.k
  (c', drawColumnTrail o error lines colIndex c' { a with k := k' })

/-- Embeds `FrameDrawer.update_and_draw_columns`: the loop
`for col_index in range(self.terminal_columns)`, processing each column
in order.  `colIndex` is the index of the head of `cs`. -/
def updateCols (o : RandomSource) (error : Bool) (lines frame : Nat) :
    Nat → List ColState → DrawAcc → List ColState × DrawAcc
  | _, [], a => ([], a)
  | colIndex, c :: rest, a =>
    let (c', a') := updateColumn o error lines frame colIndex c a
    let (rest', a'') := updateCols o error lines frame (colIndex + 1) rest a'
    (c' :: rest', a'')

/-- Embeds `FrameDrawer.initialize_columns`: `drops` all `0`; the `speeds` list
comprehension performs random calls `k, …, k+cols-1`, then the `lengths`
comprehension performs calls `k+cols, …, k+2*cols-1`. -/
def initializeColumns (o : RandomSource) (cols : Nat) (k : Nat) :
    List ColState × Nat :=
  ((List.range cols).map (fun i => ⟨0, o.floats (k + i), o.ints (k + cols + i)⟩),
    k + 2 * cols)

/-- Embeds `_TerminalFrame._create_display_buffer`: a `lines × columns` grid of
blank glyphs and a matching grid of `RESET` color tags. -/
def createDisplayBuffer (lines cols : Nat) :
    List (List String) × List (List String) :=
  (List.replicate lines (List.replicate cols " "),
    List.replicate lines (List.replicate cols RESET))

/-- Embeds `_TerminalFrame._get_terminal_size`: `query` is the outcome of the OS
terminal-size query (`shutil.get_terminal_size`), `kwColumns`/`kwLines`
the optional keyword overrides (never passed at the call site); all
failures are caught and replaced by the fallback dimensions. -/
def getTerminalSize (query : Except Unit (Nat × Nat))
    (kwColumns kwLines : Option Nat) : Nat × Nat :=
  match query with
  | .ok (c, l) => (c, l)
  | .error _ => (kwColumns.getD DEFAULT_TERMINAL_COLUMNS,
      kwLines.getD DEFAULT_TERMINAL_LINES)

/-- The whole mutable state of a `FrameDrawer`. -/
structure SimState where
  lines : Nat
  columns : Nat
  frame : Nat
  colStates : List ColState
  display : List (List String)
  colors : List (List String)
  k : Nat
deriving Repr

/-- Embeds `FrameDrawer.__init__` with the terminal dimensions already detected:
`frame = 0`, empty buffers, columns initialized (consuming `2 * columns`
random calls). -/
def initState (o : RandomSource) (cols lines : Nat) : SimState :=
  let (cs, k) := initializeColumns o cols 0
  { lines := lines, columns := cols, frame := 0, colStates := cs,
    display := [], colors := [], k := k }

/-- One animation tick as driven by the main loop: `_initialize_frame`
(fresh blank buffers, then `update_and_draw_columns`) followed by
`_sleep_and_advance_frame`'s `frame += 1`.  Also returns the tick's
buffer-write log. -/
def tick (o : RandomSource) (error : Bool) (st : SimState) :
    SimState × List (Int × Nat) :=
  let (d0, c0) := createDisplayBuffer st.lines st.columns
  let (cs', a) := updateCols o error st.lines st.frame 0 st.colStates
    ⟨d0, c0, st.k, []⟩
  ({ st with
      colStates := cs'
      display := a.display
      colors := a.colors
      k := a.k
      frame := st.frame + 1 }, a.writes)

/-- Runs `n` iterations of the animation loop body. -/
def runTicks (o : RandomSource) (error : Bool) (st : SimState) : Nat → SimState
  | 0 => st
  | n + 1 => (tick o error (runTicks o error st n)).1

/-- Embeds `_TerminalFrame._build_line`: start from the empty string, append
`colors[row][col] + display[row][col]` for each column, then append
`RESET`. -/
def buildLine (colors display : List (List String)) (cols rowIdx : Nat) :
    String :=
  ((List.range cols).foldl
    (fun line colIdx =>
      line ++ (colors.getD rowIdx []).getD colIdx ""
        ++ (display.getD rowIdx []).getD colIdx "") "") ++ RESET

/-- Embeds `_TerminalFrame._write_row` together with `_check_for_end_of_frame`:
the built line, followed by a newline unless this is the last row. -/
def writeRow (st : SimState) (rowIdx : Nat) : String :=
  buildLine st.colors st.display st.columns rowIdx
    ++ (if rowIdx < st.lines - 1 then "\n" else "")

/-- Embeds `_TerminalFrame.draw_frame`: cursor to top-left, then every row in
order. -/
def drawFrame (st : SimState) : String :=
  CURSOR_TOP_LEFT ++ (List.range st.lines).foldl (fun out r => out ++ writeRow st r) ""

/-- Specification-side description of joined output lines: the given
lines separated by single newlines, with no trailing newline. -/
def joinLines : List String → String
  | [] => ""
  | [l] => l
  | l :: l2 :: ls => l ++ "\n" ++ joinLines (l2 :: ls)

/-- A concrete well-formed random source used to instantiate theorems
with hypotheses at explicit inputs. -/
def o0 : RandomSource :=
  ⟨fun _ => 1, fun _ => 5, fun _ => 0⟩

/-- A column's randomized parameters lie in their distributions' ranges:
`speed ∈ [0.5, 1.5]` and `trailLength ∈ [5, 25]`. -/
def SpeedLenOk (c : ColState) : Prop :=
  (1/2 : ℚ) ≤ c.speed ∧ c.speed ≤ 3/2 ∧ 5 ≤ c.len ∧ c.len ≤ 25

/-- Between ticks the head position satisfies
`0 ≤ drop ≤ lines + trailLength`. -/
def DropOk (lines : Nat) (c : ColState) : Prop :=
  0 ≤ c.drop ∧ c.drop ≤ (lines : Int) + (c.len : Int)

/-- The full per-column invariant. -/
def ColOk (lines : Nat) (c : ColState) : Prop :=
  SpeedLenOk c ∧ DropOk lines c

/-- A buffer is a `lines × cols` grid. -/
def Shape (lines cols : Nat) (buf : List (List String)) : Prop :=
  buf.length = lines ∧ ∀ row ∈ buf, row.length = cols

theorem o0_wf : o0.Wf := by
  intro k
  refine ⟨?_, ?_, ?_, ?_, ?_⟩
  · show (1/2 : ℚ) ≤ 1
    norm_num
  · show (1 : ℚ) ≤ 3/2
    norm_num
  · show 5 ≤ 5
    exact le_refl _
  · show 5 ≤ 25
    norm_num
  · show 0 < CHARS.length
    decide

/-! ## Helper lemmas -/

theorem getD_set_self (l : List String) (i : Nat) (v : String)
    (h : i < l.length) : (l.set i v).getD i "" = v := by
  rw [List.getD_eq_getElem _ _ (by simpa using h)]
  simp [List.getElem_set]

theorem set2d_getD (buf : List (List String)) (r c : Nat) (v : String)
    (hr : r < buf.length) (hc : c < (buf.getD r []).length) :
    ((set2d buf r c v).getD r []).getD c "" = v := by
  unfold set2d
  have h1 : (buf.set r ((buf.getD r []).set c v)).getD r [] =
      (buf.getD r []).set c v := by
    rw [List.getD_eq_getElem _ _ (by simpa using hr)]
    simp [List.getElem_set]
  rw [h1]
  exact getD_set_self _ _ _ hc

theorem foldl_preserve {α β : Type} {P : α → Prop} (f : α → β → α)
    (l : List β) (a : α) (h : ∀ a x, P a → P (f a x)) (ha : P a) :
    P (l.foldl f a) := by
  induction l generalizing a with
  | nil => exact ha
  | cons x xs ih => exact ih _ (h a x ha)

theorem skipInterval_one : skipInterval 1 = 2 := by
  unfold skipInterval pyTrunc
  norm_num

/-! ## C1: skip interval and the advance step -/

/-- C1.  For any speed in `[0.5, 1.5]` the skip interval computed by
`update_and_draw_columns` equals `max 1 ⌊2 / speed⌋` and is positive, and
the advance step increments `drop` by exactly one when
`frame % skipInterval = 0` and leaves the column unchanged otherwise. -/
theorem skip_interval_and_advance (speed : ℚ)
    (h1 : (1/2 : ℚ) ≤ speed) (h2 : speed ≤ 3/2) :
    skipInterval speed = max 1 ⌊(2 / speed : ℚ)⌋ ∧
    0 < skipInterval speed ∧
    ∀ (frame : Nat) (c : ColState), c.speed = speed →
      ((frame : Int) % skipInterval speed = 0 →
        (advanceDrop frame c).drop = c.drop + 1 ∧
        (advanceDrop frame c).speed = c.speed ∧
        (advanceDrop frame c).len = c.len) ∧
      ((frame : Int) % skipInterval speed ≠ 0 → advanceDrop frame c = c) := by
  have hpos : (0 : ℚ) < speed := lt_of_lt_of_le (by norm_num) h1
  have hq : (0 : ℚ) ≤ 2 / speed := le_of_lt (by positivity)
  have hfloor : skipInterval speed = max 1 ⌊(2 / speed : ℚ)⌋ := by
    unfold skipInterval pyTrunc
    rw [if_pos hq]
  refine ⟨hfloor, lt_of_lt_of_le Int.zero_lt_one (le_max_left 1 _), ?_⟩
  intro frame c hc
  constructor
  · intro hmod
    have : (frame : Int) % skipInterval c.speed = 0 := by rw [hc]; exact hmod
    simp [advanceDrop, this]
  · intro hmod
    have : ¬ (frame : Int) % skipInterval c.speed = 0 := by rw [hc]; exact hmod
    simp [advanceDrop, this]

theorem skip_interval_and_advance_witness :
    skipInterval 1 = max 1 ⌊(2 / 1 : ℚ)⌋ ∧ 0 < skipInterval 1 ∧
    (advanceDrop 4 ⟨7, 1, 5⟩).drop = 7 + 1 := by
  obtain ⟨ha, hb, hc⟩ := skip_interval_and_advance 1 (by norm_num) (by norm_num)
  refine ⟨ha, hb, ((hc 4 ⟨7, 1, 5⟩ rfl).1 ?_).1⟩
  rw [skipInterval_one]
  decide

/-! ## C2: drop-off reset happens before painting -/

/-- C2.  If, after the advance step of a tick, `drop > lines + len`, then
that same per-column update resets the column (`drop = 0`, fresh speed and
length from the random stream, within their distributions' ranges) and the
trail is painted for the already-reset column state. -/
theorem drop_off_resets_before_painting (o : RandomSource) (hwf : o.Wf)
    (error : Bool) (lines frame colIndex : Nat) (c : ColState) (a : DrawAcc)
    (h : (advanceDrop frame c).drop >
      (lines : Int) + ((advanceDrop frame c).len : Int)) :
    (updateColumn o error lines frame colIndex c a).1 =
      ⟨0, o.floats a.k, o.ints (a.k + 1)⟩ ∧
    (1/2 : ℚ) ≤ o.floats a.k ∧ o.floats a.k ≤ 3/2 ∧
    5 ≤ o.ints (a.k + 1) ∧ o.ints (a.k + 1) ≤ 25 ∧
    (updateColumn o error lines frame colIndex c a).2 =
      drawColumnTrail o error lines colIndex ⟨0, o.floats a.k, o.ints (a.k + 1)⟩
        { a with k := a.k + 2 } := by
  obtain ⟨h1, h2, -, -, -⟩ := hwf a.k
  obtain ⟨-, -, h5, h6, -⟩ := hwf (a.k + 1)
  have key : checkForDropOff o lines (advanceDrop frame c) a.k =
      (⟨0, o.floats a.k, o.ints (a.k + 1)⟩, a.k + 2) := by
    unfold checkForDropOff resetColumn
    rw [if_pos h]
  simp only [updateColumn]
  rw [key]
  exact ⟨rfl, h1, h2, h5, h6, rfl⟩

theorem drop_off_resets_before_painting_witness :
    ((advanceDrop 0 ⟨8, 1, 5⟩).drop >
      ((2 : Nat) : Int) + (((advanceDrop 0 ⟨8, 1, 5⟩).len : Nat) : Int)) ∧
    (updateColumn o0 false 2 0 0 ⟨8, 1, 5⟩ ⟨[], [], 0, []⟩).1 =
      ⟨0, o0.floats 0, o0.ints 1⟩ := by
  have hcond : ((0 : Nat) : Int) % skipInterval (1 : ℚ) = 0 := by
    rw [skipInterval_one]; decide
  have hadv : (advanceDrop 0 (⟨8, 1, 5⟩ : ColState)) = ⟨9, 1, 5⟩ := by
    simp [advanceDrop, hcond]
  constructor
  · rw [hadv]; decide
  · exact (drop_off_resets_before_painting o0 o0_wf false 2 0 0 ⟨8, 1, 5⟩
      ⟨[], [], 0, []⟩ (by rw [hadv]; decide)).1

/-! ## C4: trail color tiers -/

/-- C4.  `_set_character_color` writes the bright tier at trail offset 0,
the mid tier at offsets 1 and 2, the dim tier at offsets ≥ 3, and in error
mode writes the alert color at every offset (in particular 0, 1, 3, 10). -/
theorem character_color_tiers (colors : List (List String)) (y i : Nat)
    (hy : y < colors.length) (hi : i < (colors.getD y []).length) :
    (∀ j : Nat, ((setCharacterColor true colors y i j).getD y []).getD i "" = RED) ∧
    (∀ j : Nat, j = 0 →
      ((setCharacterColor false colors y i j).getD y []).getD i "" = BRIGHT_GREEN) ∧
    (∀ j : Nat, 1 ≤ j → j < 3 →
      ((setCharacterColor false colors y i j).getD y []).getD i "" = GREEN) ∧
    (∀ j : Nat, 3 ≤ j →
      ((setCharacterColor false colors y i j).getD y []).getD i "" = DIM_GREEN) := by
  refine ⟨fun j => ?_, fun j hj => ?_, fun j hj1 hj3 => ?_, fun j hj => ?_⟩
  · unfold setCharacterColor
    rw [if_pos rfl]
    exact set2d_getD _ _ _ _ hy hi
  · unfold setCharacterColor
    rw [if_neg (by simp), if_pos hj]
    exact set2d_getD _ _ _ _ hy hi
  · unfold setCharacterColor
    rw [if_neg (by simp), if_neg (by omega), if_pos hj3]
    exact set2d_getD _ _ _ _ hy hi
  · unfold setCharacterColor
    rw [if_neg (by simp), if_neg (by omega), if_neg (by omega)]
    exact set2d_getD _ _ _ _ hy hi

theorem character_color_tiers_witness :
    (0 : Nat) < [[RESET]].length ∧ (0 : Nat) < (([[RESET]] : List (List String)).getD 0 []).length ∧
    ((setCharacterColor true [[RESET]] 0 0 10).getD 0 []).getD 0 "" = RED ∧
    ((setCharacterColor false [[RESET]] 0 0 0).getD 0 []).getD 0 "" = BRIGHT_GREEN ∧
    ((setCharacterColor false [[RESET]] 0 0 1).getD 0 []).getD 0 "" = GREEN ∧
    ((setCharacterColor false [[RESET]] 0 0 3).getD 0 []).getD 0 "" = DIM_GREEN := by
  obtain ⟨hr, hb, hg, hd⟩ :=
    character_color_tiers [[RESET]] 0 0 (by decide) (by decide)
  exact ⟨by decide, by decide, hr 10, hb 0 rfl, hg 1 (by decide) (by decide),
    hd 3 (by decide)⟩

/-! ## Invariant machinery for C3 and C9 -/

theorem advanceDrop_speed (frame : Nat) (c : ColState) :
    (advanceDrop frame c).speed = c.speed := by
  unfold advanceDrop; split <;> rfl

theorem advanceDrop_len (frame : Nat) (c : ColState) :
    (advanceDrop frame c).len = c.len := by
  unfold advanceDrop; split <;> rfl

theorem advanceDrop_drop_le (frame : Nat) (c : ColState) :
    c.drop ≤ (advanceDrop frame c).drop ∧
      (advanceDrop frame c).drop ≤ c.drop + 1 := by
  unfold advanceDrop; split <;> simp

theorem resetColumn_ok (o : RandomSource) (hwf : o.Wf) (lines k : Nat) :
    ColOk lines (resetColumn o k).1 := by
  obtain ⟨h1, h2, -, -, -⟩ := hwf k
  obtain ⟨-, -, h5, h6, -⟩ := hwf (k + 1)
  refine ⟨⟨h1, h2, h5, h6⟩, le_refl 0, ?_⟩
  show (0 : Int) ≤ (lines : Int) + ((o.ints (k + 1) : Nat) : Int)
  omega

theorem checkForDropOff_ok (o : RandomSource) (hwf : o.Wf) (lines : Nat)
    (c : ColState) (k : Nat) (hsl : SpeedLenOk c) (hd0 : 0 ≤ c.drop)
    (hd1 : c.drop ≤ (lines : Int) + (c.len : Int) + 1) :
    ColOk lines (checkForDropOff o lines c k).1 := by
  unfold checkForDropOff
  split
  · exact resetColumn_ok o hwf lines k
  · next hgt =>
    refine ⟨hsl, hd0, ?_⟩
    show c.drop ≤ (lines : Int) + (c.len : Int)
    omega

theorem updateColumn_fst (o : RandomSource) (error : Bool)
    (lines frame colIndex : Nat) (c : ColState) (a : DrawAcc) :
    (updateColumn o error lines frame colIndex c a).1 =
      (checkForDropOff o lines (advanceDrop frame c) a.k).1 := rfl

theorem updateColumn_ok (o : RandomSource) (hwf : o.Wf) (error : Bool)
    (lines frame colIndex : Nat) (c : ColState) (a : DrawAcc)
    (hc : ColOk lines c) :
    ColOk lines (updateColumn o error lines frame colIndex c a).1 := by
  rw [updateColumn_fst]
  obtain ⟨⟨hs1, hs2, hl1, hl2⟩, hd0, hd1⟩ := hc
  obtain ⟨hle, hle1⟩ := advanceDrop_drop_le frame c
  refine checkForDropOff_ok o hwf lines _ a.k ?_ (by omega) ?_
  · rw [SpeedLenOk, advanceDrop_speed, advanceDrop_len]
    exact ⟨hs1, hs2, hl1, hl2⟩
  · rw [advanceDrop_len]
    omega

theorem updateCols_nil (o : RandomSource) (error : Bool)
    (lines frame i : Nat) (a : DrawAcc) :
    updateCols o error lines frame i [] a = ([], a) := rfl

theorem updateCols_cons (o : RandomSource) (error : Bool)
    (lines frame i : Nat) (c : ColState) (rest : List ColState) (a : DrawAcc) :
    updateCols o error lines frame i (c :: rest) a =
      ((updateColumn o error lines frame i c a).1 ::
        (updateCols o error lines frame (i + 1) rest
          (updateColumn o error lines frame i c a).2).1,
        (updateCols o error lines frame (i + 1) rest
          (updateColumn o error lines frame i c a).2).2) := rfl

theorem updateCols_ok (o : RandomSource) (hwf : o.Wf) (error : Bool)
    (lines frame : Nat) (cs : List ColState) :
    ∀ (i : Nat) (a : DrawAcc), (∀ c ∈ cs, ColOk lines c) →
      ∀ c' ∈ (updateCols o error lines frame i cs a).1, ColOk lines c' := by
  induction cs with
  | nil =>
    intro i a _ c' hc'
    rw [updateCols_nil] at hc'
    simp at hc'
  | cons c rest ih =>
    intro i a h c' hc'
    rw [updateCols_cons] at hc'
    rcases List.mem_cons.mp hc' with h1 | h1
    · rw [h1]
      exact updateColumn_ok o hwf error lines frame i c a (h c (List.mem_cons_self c rest))
    · exact ih (i + 1) _ (fun d hd => h d (List.mem_cons_of_mem c hd)) c' h1

theorem initializeColumns_ok (o : RandomSource) (hwf : o.Wf)
    (lines cols k : Nat) :
    ∀ c ∈ (initializeColumns o cols k).1, ColOk lines c := by
  intro c hc
  simp only [initializeColumns, List.mem_map, List.mem_range] at hc
  obtain ⟨i, -, rfl⟩ := hc
  obtain ⟨h1, h2, -, -, -⟩ := hwf (k + i)
  obtain ⟨-, -, h5, h6, -⟩ := hwf (k + cols + i)
  refine ⟨⟨h1, h2, h5, h6⟩, le_refl 0, ?_⟩
  show (0 : Int) ≤ (lines : Int) + ((o.ints (k + cols + i) : Nat) : Int)
  omega

theorem tick_lines (o : RandomSource) (error : Bool) (st : SimState) :
    (tick o error st).1.lines = st.lines := rfl

theorem tick_columns (o : RandomSource) (error : Bool) (st : SimState) :
    (tick o error st).1.columns = st.columns := rfl

theorem tick_colStates (o : RandomSource) (error : Bool) (st : SimState) :
    (tick o error st).1.colStates =
      (updateCols o error st.lines st.frame 0 st.colStates
        ⟨(createDisplayBuffer st.lines st.columns).1,
          (createDisplayBuffer st.lines st.columns).2, st.k, []⟩).1 := rfl

theorem runTicks_lines (o : RandomSource) (error : Bool) (st : SimState) :
    ∀ n, (runTicks o error st n).lines = st.lines := by
  intro n
  induction n with
  | zero => rfl
  | succ n ih => rw [runTicks, tick_lines, ih]

theorem runTicks_columns (o : RandomSource) (error : Bool) (st : SimState) :
    ∀ n, (runTicks o error st n).columns = st.columns := by
  intro n
  induction n with
  | zero => rfl
  | succ n ih => rw [runTicks, tick_columns, ih]

theorem initState_lines (o : RandomSource) (cols lines : Nat) :
    (initState o cols lines).lines = lines := rfl

theorem initState_colStates (o : RandomSource) (cols lines : Nat) :
    (initState o cols lines).colStates = (initializeColumns o cols 0).1 := rfl

theorem runTicks_ok (o : RandomSource) (hwf : o.Wf) (error : Bool)
    (cols lines : Nat) :
    ∀ n, ∀ c ∈ (runTicks o error (initState o cols lines) n).colStates,
      ColOk lines c := by
  intro n
  induction n with
  | zero =>
    rw [runTicks, initState_colStates]
    exact initializeColumns_ok o hwf lines cols 0
  | succ n ih =>
    rw [runTicks, tick_colStates]
    have hl : (runTicks o error (initState o cols lines) n).lines = lines := by
      rw [runTicks_lines, initState_lines]
    rw [hl]
    exact updateCols_ok o hwf error lines _ _ 0 _ ih

/-! ## C3: speed and trail-length ranges are invariant -/

/-- C3.  At every point of the simulation — after initialization, after
every tick, and immediately after a column reset — every column's speed
lies in `[0.5, 1.5]` and its trail length in `[5, 25]`. -/
theorem speed_and_length_invariant (o : RandomSource) (hwf : o.Wf)
    (error : Bool) (cols lines n : Nat) :
    (∀ c ∈ (runTicks o error (initState o cols lines) n).colStates,
      (1/2 : ℚ) ≤ c.speed ∧ c.speed ≤ 3/2 ∧ 5 ≤ c.len ∧ c.len ≤ 25) ∧
    (∀ k, (1/2 : ℚ) ≤ (resetColumn o k).1.speed ∧
      (resetColumn o k).1.speed ≤ 3/2 ∧
      5 ≤ (resetColumn o k).1.len ∧ (resetColumn o k).1.len ≤ 25) := by
  constructor
  · intro c hc
    exact (runTicks_ok o hwf error cols lines n c hc).1
  · intro k
    exact (resetColumn_ok o hwf lines k).1

theorem speed_and_length_invariant_witness :
    (∀ c ∈ (runTicks o0 false (initState o0 1 2) 1).colStates,
      (1/2 : ℚ) ≤ c.speed ∧ c.speed ≤ 3/2 ∧ 5 ≤ c.len ∧ c.len ≤ 25) ∧
    (∀ k, (1/2 : ℚ) ≤ (resetColumn o0 k).1.speed ∧
      (resetColumn o0 k).1.speed ≤ 3/2 ∧
      5 ≤ (resetColumn o0 k).1.len ∧ (resetColumn o0 k).1.len ≤ 25) :=
  speed_and_length_invariant o0 o0_wf false 1 2 1

/-! ## C9: the drop position is bounded between ticks -/

/-- C9.  After initialization and after every completed tick, every
column's head position satisfies `0 ≤ drop ≤ lines + trailLength`. -/
theorem drop_position_bounded (o : RandomSource) (hwf : o.Wf)
    (error : Bool) (cols lines n : Nat) :
    ∀ c ∈ (runTicks o error (initState o cols lines) n).colStates,
      0 ≤ c.drop ∧ c.drop ≤ (lines : Int) + (c.len : Int) := by
  intro c hc
  exact (runTicks_ok o hwf error cols lines n c hc).2

theorem drop_position_bounded_witness :
    o0.Wf ∧
    ∀ c ∈ (runTicks o0 false (initState o0 1 2) 3).colStates,
      0 ≤ c.drop ∧ c.drop ≤ ((2 : Nat) : Int) + (c.len : Int) :=
  ⟨o0_wf, drop_position_bounded o0 o0_wf false 1 2 3⟩

/-! ## Buffer-shape machinery for C5 -/

theorem set2d_shape (lines cols : Nat) (buf : List (List String))
    (r c : Nat) (v : String) (h : Shape lines cols buf) :
    Shape lines cols (set2d buf r c v) := by
  obtain ⟨hlen, hrows⟩ := h
  rcases Nat.lt_or_ge r buf.length with hr | hr
  · constructor
    · rw [set2d, List.length_set]; exact hlen
    · intro row hrow
      unfold set2d at hrow
      rcases List.mem_or_eq_of_mem_set hrow with h1 | h1
      · exact hrows row h1
      · subst h1
        rw [List.length_set, List.getD_eq_getElem _ _ hr]
        exact hrows _ (List.getElem_mem _)
  · unfold set2d
    rw [List.set_eq_of_length_le hr]
    exact ⟨hlen, hrows⟩

theorem setCharacterColor_shape (lines cols : Nat) (error : Bool)
    (colors : List (List String)) (y i j : Nat)
    (h : Shape lines cols colors) :
    Shape lines cols (setCharacterColor error colors y i j) := by
  unfold setCharacterColor
  repeat' split
  all_goals exact set2d_shape _ _ _ _ _ _ h

theorem drawAndColorCharacter_shape (o : RandomSource) (error : Bool)
    (lines cols colIndex : Nat) (c : ColState) (j : Nat) (a : DrawAcc)
    (h : Shape lines cols a.display ∧ Shape lines cols a.colors) :
    Shape lines cols (drawAndColorCharacter o error lines colIndex c j a).display ∧
      Shape lines cols (drawAndColorCharacter o error lines colIndex c j a).colors := by
  unfold drawAndColorCharacter
  dsimp only
  split
  · exact ⟨set2d_shape _ _ _ _ _ _ h.1, setCharacterColor_shape _ _ _ _ _ _ _ h.2⟩
  · exact h

theorem drawColumnTrail_shape (o : RandomSource) (error : Bool)
    (lines cols colIndex : Nat) (c : ColState) (a : DrawAcc)
    (h : Shape lines cols a.display ∧ Shape lines cols a.colors) :
    Shape lines cols (drawColumnTrail o error lines colIndex c a).display ∧
      Shape lines cols (drawColumnTrail o error lines colIndex c a).colors := by
  unfold drawColumnTrail
  exact foldl_preserve _ _ _
    (fun a j ha => drawAndColorCharacter_shape o error lines cols colIndex c j a ha) h

theorem updateColumn_snd (o : RandomSource) (error : Bool)
    (lines frame colIndex : Nat) (c : ColState) (a : DrawAcc) :
    (updateColumn o error lines frame colIndex c a).2 =
      drawColumnTrail o error lines colIndex
        (checkForDropOff o lines (advanceDrop frame c) a.k).1
        { a with k := (checkForDropOff o lines (advanceDrop frame c) a.k).2 } := rfl

theorem updateColumn_shape (o : RandomSource) (error : Bool)
    (lines frame cols colIndex : Nat) (c : ColState) (a : DrawAcc)
    (h : Shape lines cols a.display ∧ Shape lines cols a.colors) :
    Shape lines cols (updateColumn o error lines frame colIndex c a).2.display ∧
      Shape lines cols (updateColumn o error lines frame colIndex c a).2.colors := by
  rw [updateColumn_snd]
  exact drawColumnTrail_shape o error lines cols colIndex _ _ h

theorem updateCols_shape (o : RandomSource) (error : Bool)
    (lines frame cols : Nat) (cs : List ColState) :
    ∀ (i : Nat) (a : DrawAcc),
      Shape lines cols a.display ∧ Shape lines cols a.colors →
      Shape lines cols (updateCols o error lines frame i cs a).2.display ∧
        Shape lines cols (updateCols o error lines frame i cs a).2.colors := by
  induction cs with
  | nil =>
    intro i a h
    rw [updateCols_nil]
    exact h
  | cons c rest ih =>
    intro i a h
    rw [updateCols_cons]
    exact ih (i + 1) _ (updateColumn_shape o error lines frame cols i c a h)

theorem createDisplayBuffer_shape (lines cols : Nat) :
    Shape lines cols (createDisplayBuffer lines cols).1 ∧
      Shape lines cols (createDisplayBuffer lines cols).2 := by
  constructor <;> constructor
  · exact List.length_replicate lines _
  · intro row hrow
    rw [(List.eq_of_mem_replicate hrow : row = List.replicate cols " ")]
    exact List.length_replicate cols _
  · exact List.length_replicate lines _
  · intro row hrow
    rw [(List.eq_of_mem_replicate hrow : row = List.replicate cols RESET)]
    exact List.length_replicate cols _

theorem tick_display (o : RandomSource) (error : Bool) (st : SimState) :
    (tick o error st).1.display =
      (updateCols o error st.lines st.frame 0 st.colStates
        ⟨(createDisplayBuffer st.lines st.columns).1,
          (createDisplayBuffer st.lines st.columns).2, st.k, []⟩).2.display := rfl

theorem tick_colors (o : RandomSource) (error : Bool) (st : SimState) :
    (tick o error st).1.colors =
      (updateCols o error st.lines st.frame 0 st.colStates
        ⟨(createDisplayBuffer st.lines st.columns).1,
          (createDisplayBuffer st.lines st.columns).2, st.k, []⟩).2.colors := rfl

theorem tick_shape (o : RandomSource) (error : Bool) (st : SimState) :
    Shape st.lines st.columns (tick o error st).1.display ∧
      Shape st.lines st.columns (tick o error st).1.colors := by
  rw [tick_display, tick_colors]
  exact updateCols_shape o error st.lines st.frame st.columns st.colStates 0 _
    (createDisplayBuffer_shape st.lines st.columns)

/-! ## C5: clearing precedes writing and dimensions are stable -/

/-- C5.  The clear step produces `display` and `colors` buffers of
identical shape `lines × columns`, with every display cell blank and
every colors cell the reset tag; each tick's buffers are produced by
`update_and_draw_columns` starting from those freshly cleared buffers
(so every cell is cleared before any cell write of the frame); and after
every frame both buffers again have the `lines × columns` shape. -/
theorem clear_before_write_and_stable_shape (o : RandomSource)
    (error : Bool) (cols lines : Nat) (st : SimState) :
    (Shape lines cols (createDisplayBuffer lines cols).1 ∧
      Shape lines cols (createDisplayBuffer lines cols).2 ∧
      (∀ row ∈ (createDisplayBuffer lines cols).1, ∀ cell ∈ row, cell = " ") ∧
      (∀ row ∈ (createDisplayBuffer lines cols).2, ∀ cell ∈ row, cell = RESET)) ∧
    ((tick o error st).1.display =
      (updateCols o error st.lines st.frame 0 st.colStates
        ⟨(createDisplayBuffer st.lines st.columns).1,
          (createDisplayBuffer st.lines st.columns).2, st.k, []⟩).2.display ∧
      (tick o error st).1.colors =
        (updateCols o error st.lines st.frame 0 st.colStates
          ⟨(createDisplayBuffer st.lines st.columns).1,
            (createDisplayBuffer st.lines st.columns).2, st.k, []⟩).2.colors) ∧
    (∀ n : Nat,
      Shape lines cols
        (runTicks o error (initState o cols lines) (n + 1)).display ∧
      Shape lines cols
        (runTicks o error (initState o cols lines) (n + 1)).colors) := by
  refine ⟨⟨(createDisplayBuffer_shape lines cols).1,
    (createDisplayBuffer_shape lines cols).2, ?_, ?_⟩,
    ⟨tick_display o error st, tick_colors o error st⟩, ?_⟩
  · intro row hrow cell hcell
    rw [(List.eq_of_mem_replicate hrow : row = List.replicate cols " ")] at hcell
    exact List.eq_of_mem_replicate hcell
  · intro row hrow cell hcell
    rw [(List.eq_of_mem_replicate hrow : row = List.replicate cols RESET)] at hcell
    exact List.eq_of_mem_replicate hcell
  · intro n
    have hl : (runTicks o error (initState o cols lines) n).lines = lines := by
      rw [runTicks_lines, initState_lines]
    have hc : (runTicks o error (initState o cols lines) n).columns = cols := by
      rw [runTicks_columns]
      rfl
    have := tick_shape o error (runTicks o error (initState o cols lines) n)
    rw [hl, hc] at this
    exact this

/-! ## Write-trace machinery for C10 -/

theorem drawAndColorCharacter_writes (o : RandomSource) (error : Bool)
    (lines colIndex : Nat) (c : ColState) (j : Nat) (a : DrawAcc) :
    ∃ tail, (drawAndColorCharacter o error lines colIndex c j a).writes =
        a.writes ++ tail ∧
      ∀ w ∈ tail, 0 ≤ w.1 ∧ w.1 < (lines : Int) ∧ w.2 = colIndex := by
  unfold drawAndColorCharacter
  dsimp only
  split
  · next hin =>
    refine ⟨[(c.drop - (j : Int), colIndex)], rfl, ?_⟩
    intro w hw
    rw [List.mem_singleton] at hw
    subst hw
    unfold characterWithinTerminalBounds at hin
    simp only [Bool.and_eq_true, decide_eq_true_eq] at hin
    exact ⟨hin.1, hin.2, rfl⟩
  · exact ⟨[], by simp, by simp⟩

theorem drawColumnTrail_writes (o : RandomSource) (error : Bool)
    (lines colIndex : Nat) (c : ColState) :
    ∀ (l : List Nat) (a : DrawAcc),
      ∃ tail,
        (l.foldl (fun a j => drawAndColorCharacter o error lines colIndex c j a)
          a).writes = a.writes ++ tail ∧
        ∀ w ∈ tail, 0 ≤ w.1 ∧ w.1 < (lines : Int) ∧ w.2 = colIndex := by
  intro l
  induction l with
  | nil => exact fun a => ⟨[], by simp, by simp⟩
  | cons j rest ih =>
    intro a
    obtain ⟨t1, he1, hp1⟩ := drawAndColorCharacter_writes o error lines colIndex c j a
    obtain ⟨t2, he2, hp2⟩ := ih (drawAndColorCharacter o error lines colIndex c j a)
    refine ⟨t1 ++ t2, ?_, ?_⟩
    · rw [List.foldl_cons, he2, he1, List.append_assoc]
    · intro w hw
      rcases List.mem_append.mp hw with h | h
      exacts [hp1 w h, hp2 w h]

theorem updateColumn_writes (o : RandomSource) (error : Bool)
    (lines frame colIndex : Nat) (c : ColState) (a : DrawAcc) :
    ∃ tail, (updateColumn o error lines frame colIndex c a).2.writes =
        a.writes ++ tail ∧
      ∀ w ∈ tail, 0 ≤ w.1 ∧ w.1 < (lines : Int) ∧ w.2 = colIndex := by
  rw [updateColumn_snd]
  unfold drawColumnTrail
  exact drawColumnTrail_writes o error lines colIndex _ _ _

theorem updateCols_writes (o : RandomSource) (error : Bool)
    (lines frame : Nat) (cs : List ColState) :
    ∀ (i : Nat) (a : DrawAcc),
      ∀ w ∈ (updateCols o error lines frame i cs a).2.writes,
        w ∈ a.writes ∨
          (0 ≤ w.1 ∧ w.1 < (lines : Int) ∧ i ≤ w.2 ∧ w.2 < i + cs.length) := by
  induction cs with
  | nil =>
    intro i a w hw
    rw [updateCols_nil] at hw
    exact Or.inl hw
  | cons c rest ih =>
    intro i a w hw
    rw [updateCols_cons] at hw
    rcases ih (i + 1) _ w hw with h | h
    · obtain ⟨t, he, hp⟩ := updateColumn_writes o error lines frame i c a
      rw [he] at h
      rcases List.mem_append.mp h with h1 | h1
      · exact Or.inl h1
      · obtain ⟨hy0, hy1, hcol⟩ := hp w h1
        refine Or.inr ⟨hy0, hy1, ?_, ?_⟩
        · omega
        · rw [List.length_cons]; omega
    · obtain ⟨hy0, hy1, hi1, hi2⟩ := h
      refine Or.inr ⟨hy0, hy1, by omega, ?_⟩
      rw [List.length_cons]; omega

/-! ## C10: every buffer write of a tick is in bounds -/

/-- C10.  Every `(row, column)` write the trail-painting code performs
during a tick satisfies `0 ≤ row < lines` and `0 ≤ column < columns`
(for any drop positions, including ones beyond the terminal height):
off-screen offsets are clipped, never written. -/
theorem trail_writes_in_bounds (o : RandomSource) (error : Bool)
    (st : SimState) (hlen : st.colStates.length = st.columns) :
    ∀ w ∈ (tick o error st).2,
      0 ≤ w.1 ∧ w.1 < (st.lines : Int) ∧ w.2 < st.columns := by
  intro w hw
  have hsnd : (tick o error st).2 =
      (updateCols o error st.lines st.frame 0 st.colStates
        ⟨(createDisplayBuffer st.lines st.columns).1,
          (createDisplayBuffer st.lines st.columns).2, st.k, []⟩).2.writes := rfl
  rw [hsnd] at hw
  rcases updateCols_writes o error st.lines st.frame st.colStates 0 _ w hw with h | h
  · simp at h
  · obtain ⟨hy0, hy1, -, hi2⟩ := h
    refine ⟨hy0, hy1, ?_⟩
    rw [← hlen]
    omega

theorem trail_writes_in_bounds_witness :
    (([⟨0, 1, 5⟩] : List ColState).length = 1) ∧
    ∀ w ∈ (tick o0 false ⟨2, 1, 0, [⟨0, 1, 5⟩], [], [], 0⟩).2,
      0 ≤ w.1 ∧ w.1 < ((2 : Nat) : Int) ∧ w.2 < 1 :=
  ⟨rfl, trail_writes_in_bounds o0 false ⟨2, 1, 0, [⟨0, 1, 5⟩], [], [], 0⟩ rfl⟩

/-! ## C8: determinism under a fixed random stream -/

theorem randomSource_ext (o1 o2 : RandomSource)
    (hf : ∀ k, o1.floats k = o2.floats k)
    (hi : ∀ k, o1.ints k = o2.ints k)
    (hc : ∀ k, o1.choices k = o2.choices k) : o1 = o2 := by
  cases o1 with
  | mk f1 i1 c1 =>
    cases o2 with
    | mk f2 i2 c2 =>
      have h1 : f1 = f2 := funext hf
      have h2 : i1 = i2 := funext hi
      have h3 : c1 = c2 := funext hc
      rw [h1, h2, h3]

/-- C8.  Two runs with the same terminal dimensions, the same number of
ticks and pointwise-identical random streams (the streams a common seed
determines) produce identical display buffers, color buffers and column
states: the simulation is a deterministic function of the random stream
and the frame counter. -/
theorem deterministic_under_fixed_seed (o1 o2 : RandomSource)
    (error : Bool) (cols lines n : Nat)
    (hf : ∀ k, o1.floats k = o2.floats k)
    (hi : ∀ k, o1.ints k = o2.ints k)
    (hc : ∀ k, o1.choices k = o2.choices k) :
    (runTicks o1 error (initState o1 cols lines) n).display =
      (runTicks o2 error (initState o2 cols lines) n).display ∧
    (runTicks o1 error (initState o1 cols lines) n).colors =
      (runTicks o2 error (initState o2 cols lines) n).colors ∧
    (runTicks o1 error (initState o1 cols lines) n).colStates =
      (runTicks o2 error (initState o2 cols lines) n).colStates := by
  have h := randomSource_ext o1 o2 hf hi hc
  subst h
  exact ⟨rfl, rfl, rfl⟩

theorem deterministic_under_fixed_seed_witness :
    (runTicks o0 false (initState o0 2 2) 2).display =
      (runTicks o0 false (initState o0 2 2) 2).display ∧
    (runTicks o0 false (initState o0 2 2) 2).colors =
      (runTicks o0 false (initState o0 2 2) 2).colors ∧
    (runTicks o0 false (initState o0 2 2) 2).colStates =
      (runTicks o0 false (initState o0 2 2) 2).colStates :=
  deterministic_under_fixed_seed o0 o0 false 2 2 2
    (fun _ => rfl) (fun _ => rfl) (fun _ => rfl)

/-! ## String machinery for C6 -/

theorem string_foldl_append (l : List String) (s : String) :
    l.foldl (fun r t => r ++ t) s = s ++ String.join l := by
  induction l generalizing s with
  | nil =>
    show s = s ++ ""
    rw [String.append_empty]
  | cons t ts ih =>
    rw [List.foldl_cons, ih (s ++ t)]
    have hjoin : String.join (t :: ts) = t ++ String.join ts := by
      show (t :: ts).foldl (fun r u => r ++ u) "" = t ++ String.join ts
      rw [List.foldl_cons, ih ("" ++ t)]
      rfl
    rw [hjoin, String.append_assoc]

theorem string_join_cons (t : String) (ts : List String) :
    String.join (t :: ts) = t ++ String.join ts := by
  show (t :: ts).foldl (fun r u => r ++ u) "" = t ++ String.join ts
  rw [List.foldl_cons, string_foldl_append ts ("" ++ t)]
  rfl

theorem string_join_append (l1 l2 : List String) :
    String.join (l1 ++ l2) = String.join l1 ++ String.join l2 := by
  show (l1 ++ l2).foldl (fun r t => r ++ t) "" = _
  rw [List.foldl_append, string_foldl_append l2]
  rfl

theorem foldl_append_join {β : Type} (f : β → String) (l : List β)
    (s : String) :
    l.foldl (fun acc x => acc ++ f x) s = s ++ String.join (l.map f) := by
  induction l generalizing s with
  | nil =>
    show s = s ++ ""
    rw [String.append_empty]
  | cons x xs ih =>
    rw [List.foldl_cons, ih (s ++ f x), List.map_cons, string_join_cons,
      String.append_assoc]

theorem joinLines_append_singleton (l : List String) (x : String) :
    joinLines (l ++ [x]) =
      String.join (l.map (fun s => s ++ "\n")) ++ x := by
  induction l with
  | nil => rfl
  | cons a l ih =>
    cases l with
    | nil => rfl
    | cons b bs =>
      have h1 : joinLines ((a :: b :: bs) ++ [x]) =
          a ++ "\n" ++ joinLines ((b :: bs) ++ [x]) := rfl
      rw [h1, ih, List.map_cons, string_join_cons]
      simp [string_join_cons, String.append_assoc]

theorem join_newlines_joinLines (f : Nat → String) (n : Nat) :
    String.join ((List.range n).map
      (fun r => f r ++ (if r < n - 1 then "\n" else ""))) =
      joinLines ((List.range n).map f) := by
  cases n with
  | zero => rfl
  | succ m =>
    rw [List.range_succ, List.map_append, List.map_append,
      string_join_append]
    simp only [List.map_cons, List.map_nil]
    rw [joinLines_append_singleton]
    have hlast : String.join [f m ++ (if m < m + 1 - 1 then "\n" else "")] = f m := by
      rw [string_join_cons, if_neg (by omega : ¬ m < m + 1 - 1),
        String.append_empty, show String.join [] = "" from rfl,
        String.append_empty]
    have hinit : (List.range m).map
        (fun r => f r ++ (if r < m + 1 - 1 then "\n" else "")) =
        (List.range m).map (fun r => f r ++ "\n") := by
      apply List.map_eq_map_iff.mpr
      intro r hr
      rw [if_pos]
      simpa using List.mem_range.mp hr
    rw [hlast, hinit]
    have hcomp : ((List.range m).map f).map (fun s => s ++ "\n") =
        (List.range m).map (fun r => f r ++ "\n") := by
      rw [List.map_map]
      rfl
    rw [hcomp]

theorem buildLine_eq (colors display : List (List String)) (cols r : Nat) :
    buildLine colors display cols r =
      String.join ((List.range cols).map (fun colIdx =>
        (colors.getD r []).getD colIdx "" ++
          (display.getD r []).getD colIdx "")) ++ RESET := by
  unfold buildLine
  congr 1
  have hfg : (fun (line : String) (colIdx : Nat) =>
      line ++ (colors.getD r []).getD colIdx "" ++
        (display.getD r []).getD colIdx "") =
      fun (line : String) (colIdx : Nat) =>
      line ++ ((colors.getD r []).getD colIdx "" ++
        (display.getD r []).getD colIdx "") := by
    funext line colIdx
    rw [String.append_assoc]
  rw [hfg, foldl_append_join (fun colIdx =>
    (colors.getD r []).getD colIdx "" ++ (display.getD r []).getD colIdx "")
    (List.range cols) ""]
  rfl

/-! ## C6: the rendered frame's output format -/

/-- C6.  `draw_frame` emits the cursor-to-top-left sequence followed by
exactly `lines` lines joined by single newlines (newline after every line
except the last); each line is the concatenation, over the columns in
order, of that cell's color tag followed by its glyph, terminated by the
color-reset sequence. -/
theorem render_output_format (st : SimState) :
    drawFrame st = CURSOR_TOP_LEFT ++
      joinLines ((List.range st.lines).map
        (buildLine st.colors st.display st.columns)) ∧
    ∀ r : Nat, buildLine st.colors st.display st.columns r =
      String.join ((List.range st.columns).map (fun colIdx =>
        (st.colors.getD r []).getD colIdx "" ++
          (st.display.getD r []).getD colIdx "")) ++ RESET := by
  constructor
  · unfold drawFrame writeRow
    congr 1
    rw [foldl_append_join (fun r =>
      buildLine st.colors st.display st.columns r ++
        (if r < st.lines - 1 then "\n" else "")) (List.range st.lines) ""]
    show String.join _ = _
    exact join_newlines_joinLines
      (fun r => buildLine st.colors st.display st.columns r) st.lines
  · intro r
    exact buildLine_eq st.colors st.display st.columns r

/-! ## C7: terminal size detection never fails -/

/-- C7.  `_get_terminal_size` is total over every outcome of the OS size
query: it returns the queried dimensions on success and, at its actual
call site (no keyword overrides), the fixed default `80 × 24` on any
failure, instead of propagating the error. -/
theorem terminal_size_never_raises :
    (∀ q : Except Unit (Nat × Nat),
      getTerminalSize q none none =
        match q with
        | .ok d => d
        | .error _ => (DEFAULT_TERMINAL_COLUMNS, DEFAULT_TERMINAL_LINES)) ∧
    getTerminalSize (.error ()) none none = (80, 24) := by
  constructor
  · intro q
    match q with
    | .ok (c, l) => rfl
    | .error () => rfl
  · rfl

end ETM
